import Mathlib

/-!
Verification of the incremental list-materialization core of
`investor_follow_tracker/scraping/infinite_scroll.py`.

The Python module drives a browser page: `load_everything` scrolls a
virtualized list until the item count stops growing (stall) or an absolute
iteration cap is hit, and `scrape` processes a worklist of URLs, extracts
the company names, and writes all rows to a CSV file.

The embedding below is shallow: the browser is an environment giving, for
each loop iteration, the measured item count and the outcomes of the two
bounded spinner waits; `scrape` is a fold over targets producing the row
list together with a trace of resource events (page open/close, loop
invocation, row emission, abort).
-/

namespace InfiniteScroll

/-- Rows are Python lists of strings: one row is `[url, name, today]`. -/
abbrev PyRow := List String

/-- Source line 28: `SCROLL_PAUSE_MS = 15000` (declared but unused by the loop). -/
def SCROLL_PAUSE_MS : Nat := 15000

/-- Source line 29: `STALL_LIMIT = 4`. -/
def STALL_LIMIT : Nat := 4

/-- Source line 30: `MAX_SCROLLS = 300`. -/
def MAX_SCROLLS : Nat := 300

/-- Source line 81: the fixed debounce delay `ctx.wait_for_timeout(500)`. -/
def DEBOUNCE_MS : Nat := 500

/-- Source lines 73 and 76: the bounded 7 s timeout of each spinner wait. -/
def SPINNER_TIMEOUT_MS : Nat := 7000

/-- Outcome of one bounded Playwright wait: it either finishes in time or
times out (raising `PWTimeout`). -/
inductive WaitResult where
  | ok
  | timeout
deriving DecidableEq, Repr

/-- Source lines 72-76, the body of the `try` block: wait for the spinner to
attach, then to detach; either wait raises `PWTimeout` (modelled `.error`)
when it times out.  A timed-out attach wait skips the detach wait. -/
def spinnerWait (a d : WaitResult) : Except Unit Unit :=
  match a with
  | .timeout => .error ()
  | .ok =>
    match d with
    | .timeout => .error ()
    | .ok => .ok ()

/-- Source lines 70-81: the `except PWTimeout: pass` swallows a timeout of
either spinner wait, and the fixed debounce delay is applied on every path.
Returns the settle delay (ms) applied before the progress check. -/
def settleStep (a d : WaitResult) : Nat :=
  match spinnerWait a d with
  | .ok _ => DEBOUNCE_MS
  | .error _ => DEBOUNCE_MS

/-- Source line 39: the loop's mutable state `stalled, seen = 0, -1`;
`seen` is the last recorded count (`-1` = unmeasured sentinel). -/
structure LoopState where
  seen : Int
  stalled : Nat
deriving DecidableEq, Repr

/-- How `load_everything` terminated: by the stall break (line 89) or by
exhausting the `range(MAX_SCROLLS)` bound (line 41). -/
inductive ExitKind where
  | stallExit
  | capExit
deriving DecidableEq, Repr

/-- Final state of one run of the convergence loop; `iterations` counts the
loop-body executions, i.e. the scroll-trigger invocations performed. -/
structure LoopResult where
  exit : ExitKind
  seen : Int
  stalled : Nat
  iterations : Nat
deriving DecidableEq, Repr

/-- Environment of one target's loop: `counts i` is the `ITEM_SELECTOR`
count measured at iteration `i` (line 84); `attach i` and `detach i` are the
outcomes of the two spinner waits at iteration `i`. -/
structure Env where
  counts : Nat → Nat
  attach : Nat → WaitResult
  detach : Nat → WaitResult

/-- Source lines 84-91, the progress check: an unchanged count increments
`stalled`; any other count becomes the new `seen` and resets `stalled`. -/
def progressCheck (s : LoopState) (nc : Nat) : LoopState :=
  if (nc : Int) = s.seen then ⟨s.seen, s.stalled + 1⟩ else ⟨(nc : Int), 0⟩

/-- Source lines 41-92, the loop body of `load_everything`, with `fuel` the
remaining iterations of `range(MAX_SCROLLS)` and `i` the current iteration
index.  Each body execution scroll-triggers, runs the settle waiter, then
performs the progress check; the stall break fires when the incremented
`stalled` reaches `STALL_LIMIT`. -/
def loadAux (env : Env) : Nat → Nat → LoopState → LoopResult
  | 0, i, s => ⟨.capExit, s.seen, s.stalled, i⟩
  | fuel + 1, i, s =>
    let _delay := settleStep (env.attach i) (env.detach i)
    let nc := env.counts i
    if (nc : Int) = s.seen then
      if STALL_LIMIT ≤ s.stalled + 1 then ⟨.stallExit, s.seen, s.stalled + 1, i + 1⟩
      else loadAux env fuel (i + 1) ⟨s.seen, s.stalled + 1⟩
    else
      loadAux env fuel (i + 1) ⟨(nc : Int), 0⟩

/-- Source lines 33-92: `load_everything` runs the loop from
`stalled, seen = 0, -1` for at most `MAX_SCROLLS` iterations. -/
def load_everything (env : Env) : LoopResult :=
  loadAux env MAX_SCROLLS 0 ⟨-1, 0⟩

/-- The state of the progress monitor before iteration `i`, had the loop run
that far without exiting: iteration `j` folds `counts j` into the state. -/
def stateAt (env : Env) : Nat → LoopState
  | 0 => ⟨-1, 0⟩
  | i + 1 => progressCheck (stateAt env i) (env.counts i)

/-- Python `str.isspace` characters relevant to `str.strip()`. -/
def pyIsSpace (c : Char) : Bool :=
  c = ' ' || c = '\t' || c = '\n' || c = '\r' || c = '\x0b' || c = '\x0c'

/-- Python `str.strip()`: drop leading and trailing whitespace. -/
def pyStrip (l : List Char) : List Char :=
  ((l.dropWhile pyIsSpace).reverse.dropWhile pyIsSpace).reverse

/-- Python `str.split("\n")`: split into the newline-separated segments,
keeping empty segments; the empty string yields `[""]`. -/
def pySplit : List Char → List (List Char)
  | [] => [[]]
  | c :: rest =>
    if c = '\n' then [] :: pySplit rest
    else
      match pySplit rest with
      | [] => [[c]]
      | seg :: segs => (c :: seg) :: segs

/-- Source line 144: `n.strip().split("\n")[0]` — strip the raw text, then
take the segment before the first newline. -/
def cleanName (l : List Char) : List Char :=
  (pySplit (pyStrip l)).headD []

/-- String form of `cleanName`. -/
def cleanNameStr (s : String) : String :=
  String.mk (cleanName s.data)

/-- Modelled from the spec's words for the normalization order ("split on
internal newlines, take the first segment, trim surrounding whitespace"):
split first, then strip the first segment. -/
def specSplitThenTrim (l : List Char) : List Char :=
  pyStrip ((pySplit l).headD [])

/-- One URL of the worklist together with the observations the page yields:
the pre-loop `ITEM_SELECTOR` count (line 134), the loop environment, and the
`FULL_SELECTOR` inner texts in DOM order (line 143). -/
structure Target where
  url : String
  firstBatch : Nat
  env : Env
  names : List String

/-- Source lines 136-139: the diagnostic passed to `sys.exit`. -/
def zeroItemsMsg : String :=
  "ITEM_SELECTOR matches 0 elements on the first screen. Re-inspect the page and update ITEM_SELECTOR / FULL_SELECTOR."

/-- Source line 147: one row `[url, name, TODAY]` per extracted name, in DOM
order, all sharing the run's single timestamp. -/
def rowsFor (today : String) (t : Target) : List PyRow :=
  t.names.map fun n => [t.url, n, today]

/-- Source lines 134-148, the per-target body of `scrape` after navigation:
a zero pre-loop count aborts the run via `sys.exit` (modelled `.error`);
otherwise the convergence loop runs, the names are extracted, the cleaned
names are computed (line 144, used only for the console count), and the
rows are built from the raw names. -/
def processTarget (today : String) (t : Target) : Except String (List PyRow) :=
  if t.firstBatch = 0 then .error zeroItemsMsg
  else
    let _loop := load_everything t.env
    let _cleanNames := t.names.map cleanNameStr
    .ok (rowsFor today t)

/-- Resource and emission events of a run, indexed by target position. -/
inductive Ev where
  | pageOpen (i : Nat)
  | loopRun (i : Nat)
  | emit (i : Nat) (rows : List PyRow)
  | pageClose (i : Nat)
  | abort (i : Nat)
deriving DecidableEq, Repr

/-- Outcome of a run: the event trace, the accumulated `all_rows`, whether
`sys.exit` fired, and its diagnostic if so. -/
structure RunOutcome where
  trace : List Ev
  rows : List PyRow
  aborted : Bool
  diag : Option String
deriving DecidableEq, Repr

/-- Source lines 101-150, the worklist fold of `scrape`: each target's page
is opened, then either the zero-count abort fires (before the loop, with the
page left open) or the loop runs, the rows are emitted, and the page is
closed before the next target is opened. -/
def runTargets (today : String) : List Target → Nat → RunOutcome
  | [], _ => ⟨[], [], false, none⟩
  | t :: ts, i =>
    match processTarget today t with
    | .error msg => ⟨[.pageOpen i, .abort i], [], true, some msg⟩
    | .ok rows =>
      let rest := runTargets today ts (i + 1)
      ⟨.pageOpen i :: .loopRun i :: .emit i rows :: .pageClose i :: rest.trace,
        rows ++ rest.rows, rest.aborted, rest.diag⟩

/-- Source lines 94-155: the whole run over the worklist. -/
def scrape (today : String) (targets : List Target) : RunOutcome :=
  runTargets today targets 0

/-- Source lines 152-154: the CSV file is written only after every target is
processed, mirroring `all_rows` exactly; an abort reaches `sys.exit` first,
so no file is written. -/
def csvFile (o : RunOutcome) : Option (List PyRow) :=
  if o.aborted then none else some o.rows

/-- The spec's row order: targets in worklist order, and within one target
the names in rendered DOM order. -/
def orderedRows (today : String) : List Target → List PyRow
  | [] => []
  | t :: ts => rowsFor today t ++ orderedRows today ts

/-- Handle-balance contribution of one event: a page open raises the number
of open handles, a close lowers it. -/
def openDelta : Ev → Int
  | .pageOpen _ => 1
  | .pageClose _ => -1
  | _ => 0

/-- Running check that the number of simultaneously open page handles stays
between 0 and 1 along a trace, starting from `d` open handles. -/
def depthOk : Int → List Ev → Bool
  | _, [] => true
  | d, e :: rest =>
    decide (0 ≤ d + openDelta e) && decide (d + openDelta e ≤ 1) &&
      depthOk (d + openDelta e) rest

/-- Recognizer for page-open events. -/
def isOpenEv : Ev → Bool
  | .pageOpen _ => true
  | _ => false

/-- Recognizer for page-close events. -/
def isCloseEv : Ev → Bool
  | .pageClose _ => true
  | _ => false

/-- An environment whose measured count is the same constant on every
iteration, with spinner waits always succeeding. -/
def constEnv (c : Nat) : Env :=
  ⟨fun _ => c, fun _ => .ok, fun _ => .ok⟩

/-- A concrete target with three rendered items, for witnesses. -/
def targetA : Target :=
  ⟨"uA", 3, constEnv 3, ["A-item1", "A-item2", "A-item3"]⟩

/-- A concrete target with two rendered items, for witnesses. -/
def targetB : Target :=
  ⟨"uB", 2, constEnv 2, ["B-item1", "B-item2"]⟩

/-- A concrete target whose item selector matches nothing on the first
screen, for witnesses and counterexamples. -/
def badT : Target :=
  ⟨"uZ", 0, constEnv 0, []⟩

lemma loadAux_succ_ne (env : Env) (fuel i : Nat) (s : LoopState)
    (h : (env.counts i : Int) ≠ s.seen) :
    loadAux env (fuel + 1) i s = loadAux env fuel (i + 1) ⟨(env.counts i : Int), 0⟩ := by
  simp [loadAux, h]

lemma loadAux_succ_eq_go (env : Env) (fuel i : Nat) (s : LoopState)
    (h : (env.counts i : Int) = s.seen) (h2 : s.stalled + 1 < STALL_LIMIT) :
    loadAux env (fuel + 1) i s = loadAux env fuel (i + 1) ⟨s.seen, s.stalled + 1⟩ := by
  simp [loadAux, h, Nat.not_le.mpr h2]

lemma loadAux_succ_eq_stop (env : Env) (fuel i : Nat) (s : LoopState)
    (h : (env.counts i : Int) = s.seen) (h2 : STALL_LIMIT ≤ s.stalled + 1) :
    loadAux env (fuel + 1) i s = ⟨.stallExit, s.seen, s.stalled + 1, i + 1⟩ := by
  simp [loadAux, h, h2]

lemma stateAt_succ_eq (env : Env) (i : Nat) (h : (env.counts i : Int) = (stateAt env i).seen) :
    stateAt env (i + 1) = ⟨(stateAt env i).seen, (stateAt env i).stalled + 1⟩ := by
  simp [stateAt, progressCheck, h]

lemma stateAt_succ_ne (env : Env) (i : Nat) (h : (env.counts i : Int) ≠ (stateAt env i).seen) :
    stateAt env (i + 1) = ⟨(env.counts i : Int), 0⟩ := by
  simp [stateAt, progressCheck, h]

/-- As long as the stall break has not yet fired, running the loop from the
start agrees with resuming it at iteration `i` from the monitor state. -/
lemma run_to_iter (env : Env) :
    ∀ i, i ≤ MAX_SCROLLS →
      (∀ j, j < i → (stateAt env (j + 1)).stalled < STALL_LIMIT) →
      load_everything env = loadAux env (MAX_SCROLLS - i) i (stateAt env i) := by
  intro i
  induction i with
  | zero => intro _ _; rfl
  | succ n ih =>
    intro hle hstall
    have hn : load_everything env = loadAux env (MAX_SCROLLS - n) n (stateAt env n) :=
      ih (Nat.le_of_succ_le hle) (fun j hj => hstall j (Nat.lt_succ_of_lt hj))
    have hfuel : MAX_SCROLLS - n = (MAX_SCROLLS - (n + 1)) + 1 := by omega
    rw [hn, hfuel]
    by_cases hc : (env.counts n : Int) = (stateAt env n).seen
    · have hlt : (stateAt env n).stalled + 1 < STALL_LIMIT := by
        have h1 := hstall n (Nat.lt_succ_self n)
        rw [stateAt_succ_eq env n hc] at h1
        exact h1
      rw [loadAux_succ_eq_go env _ n _ hc hlt, stateAt_succ_eq env n hc]
    · rw [loadAux_succ_ne env _ n _ hc, stateAt_succ_ne env n hc]

/-- Core stall lemma: if the monitor's stall counter first reaches
`STALL_LIMIT` at iteration `k` (within the cap), the loop exits with the
stall break on exactly that iteration. -/
lemma stall_exit_core (env : Env) (k : Nat) (hk : k < MAX_SCROLLS)
    (hreach : (stateAt env (k + 1)).stalled = STALL_LIMIT)
    (hfirst : ∀ j, j < k → (stateAt env (j + 1)).stalled < STALL_LIMIT) :
    load_everything env = ⟨.stallExit, (stateAt env k).seen, STALL_LIMIT, k + 1⟩ := by
  have h1 := run_to_iter env k (Nat.le_of_lt hk) hfirst
  have hc : (env.counts k : Int) = (stateAt env k).seen := by
    by_contra hc
    rw [stateAt_succ_ne env k hc] at hreach
    simp [STALL_LIMIT] at hreach
  have hstalled : (stateAt env k).stalled + 1 = STALL_LIMIT := by
    rw [stateAt_succ_eq env k hc] at hreach
    exact hreach
  have hfuel : MAX_SCROLLS - k = (MAX_SCROLLS - (k + 1)) + 1 := by omega
  rw [h1, hfuel, loadAux_succ_eq_stop env _ k _ hc (Nat.le_of_eq hstalled.symm), hstalled]

/-- The loop never performs more scroll triggers than its remaining fuel. -/
lemma loadAux_iterations_le (env : Env) :
    ∀ fuel i s, (loadAux env fuel i s).iterations ≤ i + fuel := by
  intro fuel
  induction fuel with
  | zero => intro i s; simp [loadAux]
  | succ n ih =>
    intro i s
    by_cases hc : (env.counts i : Int) = s.seen
    · by_cases h2 : STALL_LIMIT ≤ s.stalled + 1
      · rw [loadAux_succ_eq_stop env n i s hc h2]
        show i + 1 ≤ i + (n + 1)
        omega
      · rw [loadAux_succ_eq_go env n i s hc (Nat.lt_of_not_le h2)]
        have := ih (i + 1) ⟨s.seen, s.stalled + 1⟩
        omega
    · rw [loadAux_succ_ne env n i s hc]
      have := ih (i + 1) ⟨(env.counts i : Int), 0⟩
      omega

/-- C1: whenever the stall counter reaches the configured stall limit (4) —
the progress monitor has reported a count equal to `lastCount` for
`STALL_LIMIT` consecutive iterations, iteration `k` being the first at which
the counter reaches the limit — the loop exits in the stall terminal state
on exactly that iteration (the `(k+1)`-st scroll trigger), never later. -/
theorem stall_triggers_exit (env : Env) (k : Nat) (hk : k < MAX_SCROLLS)
    (hreach : (stateAt env (k + 1)).stalled = STALL_LIMIT)
    (hfirst : ∀ j, j < k → (stateAt env (j + 1)).stalled < STALL_LIMIT) :
    load_everything env = ⟨.stallExit, (stateAt env k).seen, STALL_LIMIT, k + 1⟩ :=
  stall_exit_core env k hk hreach hfirst

/-- Witness for C1: with a constant measured count of 5 the stall counter
first reaches the limit at iteration 4, and the loop stall-exits right
there, after 5 scroll triggers. -/
theorem stall_triggers_exit_witness :
    load_everything (constEnv 5) = ⟨.stallExit, (stateAt (constEnv 5) 4).seen, STALL_LIMIT, 5⟩ :=
  stall_triggers_exit (constEnv 5) 4 (by decide) (by decide) (by decide)

/-- C2: the convergence loop performs at most `MAX_SCROLLS` (300)
scroll-trigger invocations for a single target regardless of stall behavior
(it is a total function, so it always terminates), and a target whose
pre-loop count is nonzero never raises: extraction still runs and produces
its rows whatever the loop did. -/
theorem cap_is_absolute (env : Env) (today : String) (t : Target)
    (h : t.firstBatch ≠ 0) :
    (load_everything env).iterations ≤ MAX_SCROLLS ∧
      processTarget today t = .ok (rowsFor today t) := by
  constructor
  · have h1 := loadAux_iterations_le env MAX_SCROLLS 0 ⟨-1, 0⟩
    simpa [load_everything] using h1
  · simp [processTarget, h]

/-- Witness for C2 at a concrete environment and target. -/
theorem cap_is_absolute_witness :
    (load_everything (constEnv 9)).iterations ≤ MAX_SCROLLS ∧
      processTarget "2026-10-12" ⟨"uA", 2, constEnv 9, ["a1", "a2"]⟩ =
        .ok (rowsFor "2026-10-12" ⟨"uA", 2, constEnv 9, ["a1", "a2"]⟩) :=
  cap_is_absolute (constEnv 9) "2026-10-12" ⟨"uA", 2, constEnv 9, ["a1", "a2"]⟩ (by decide)

/-- C3 counterexample: with the measured count constantly 7 from iteration 0
the loop does stall-exit with `lastCount = 7`, but only after
`STALL_LIMIT + 1 = 5` iterations, not after `STALL_LIMIT = 4`: the first
iteration replaces the `-1` sentinel by 7 and only the four following ones
stall. -/
theorem rerun_iterations_counterexample :
    load_everything (constEnv 7) = ⟨.stallExit, 7, STALL_LIMIT, 5⟩ ∧
      (load_everything (constEnv 7)).iterations ≠ STALL_LIMIT := by
  constructor
  · decide
  · decide

/-- C3 as amended: if the measured count is the same constant on every
iteration from iteration 0, the loop started from `lastCount = -1`,
`stallCount = 0` reaches the stall exit in exactly `STALL_LIMIT + 1`
iterations, with `lastCount` equal to the constant count on exit. -/
theorem rerun_constant_count_amended (env : Env) (c : Nat)
    (hconst : ∀ i, env.counts i = c) :
    load_everything env = ⟨.stallExit, (c : Int), STALL_LIMIT, STALL_LIMIT + 1⟩ := by
  have hne : ((c : Int) = (-1 : Int)) = False := by
    simp only [eq_iff_iff, iff_false]
    omega
  have h1 : stateAt env 1 = ⟨(c : Int), 0⟩ := by
    simp [stateAt, progressCheck, hconst 0, hne]
  have h2 : stateAt env 2 = ⟨(c : Int), 1⟩ := by
    show progressCheck (stateAt env 1) (env.counts 1) = _
    simp [progressCheck, hconst 1, h1]
  have h3 : stateAt env 3 = ⟨(c : Int), 2⟩ := by
    show progressCheck (stateAt env 2) (env.counts 2) = _
    simp [progressCheck, hconst 2, h2]
  have h4 : stateAt env 4 = ⟨(c : Int), 3⟩ := by
    show progressCheck (stateAt env 3) (env.counts 3) = _
    simp [progressCheck, hconst 3, h3]
  have h5 : stateAt env 5 = ⟨(c : Int), 4⟩ := by
    show progressCheck (stateAt env 4) (env.counts 4) = _
    simp [progressCheck, hconst 4, h4]
  have hmain := stall_exit_core env 4 (by decide)
    (by rw [h5]; rfl)
    (by
      intro j hj
      interval_cases j
      · rw [h1]; norm_num [STALL_LIMIT]
      · rw [h2]; norm_num [STALL_LIMIT]
      · rw [h3]; norm_num [STALL_LIMIT]
      · rw [h4]; norm_num [STALL_LIMIT])
  rw [hmain, h4]
  rfl

/-- Witness for the amended C3 at the constant count 7. -/
theorem rerun_constant_count_amended_witness :
    load_everything (constEnv 7) = ⟨.stallExit, (7 : Int), STALL_LIMIT, STALL_LIMIT + 1⟩ :=
  rerun_constant_count_amended (constEnv 7) 7 (fun _ => rfl)

/-- C10: the progress check treats any count that differs from `lastCount` —
greater or smaller — as progress, setting `lastCount` to the new count and
resetting `stallCount` to 0; it increments `stallCount` only on an exactly
equal count, and inside the loop a differing (e.g. shrinking) count always
continues with a reset stall counter, never contributing to the stall exit. -/
theorem progress_on_any_change (s : LoopState) (nc : Nat) :
    ((nc : Int) ≠ s.seen → progressCheck s nc = ⟨(nc : Int), 0⟩) ∧
      ((nc : Int) = s.seen → progressCheck s nc = ⟨s.seen, s.stalled + 1⟩) ∧
      (∀ env fuel i, env.counts i = nc → (nc : Int) ≠ s.seen →
        loadAux env (fuel + 1) i s = loadAux env fuel (i + 1) ⟨(nc : Int), 0⟩) := by
  refine ⟨fun h => by simp [progressCheck, h], fun h => by simp [progressCheck, h], ?_⟩
  intro env fuel i hc h
  have hne : (env.counts i : Int) ≠ s.seen := by rw [hc]; exact h
  rw [loadAux_succ_ne env fuel i s hne, hc]

/-- Witness for C10: a count shrinking from 5 to 3 resets the stall counter,
and an unchanged count of 5 increments it. -/
theorem progress_on_any_change_witness :
    progressCheck ⟨5, 2⟩ 3 = ⟨3, 0⟩ ∧ progressCheck ⟨5, 2⟩ 5 = ⟨5, 3⟩ :=
  ⟨(progress_on_any_change ⟨5, 2⟩ 3).1 (by decide),
    (progress_on_any_change ⟨5, 2⟩ 5).2.1 (by decide)⟩

lemma pySplit_ne_nil : ∀ l : List Char, pySplit l ≠ [] := by
  intro l
  cases l with
  | nil => simp [pySplit]
  | cons c rest =>
    by_cases h : c = '\n'
    · simp [pySplit, h]
    · simp only [pySplit, if_neg h]
      cases hs : pySplit rest <;> simp

lemma headD_pySplit : ∀ l : List Char, (pySplit l).headD [] = l.takeWhile (fun c => c != '\n') := by
  intro l
  induction l with
  | nil => simp [pySplit]
  | cons c rest ih =>
    by_cases h : c = '\n'
    · simp [pySplit, h, List.takeWhile]
    · obtain ⟨seg, segs, hs⟩ : ∃ seg segs, pySplit rest = seg :: segs := by
        cases hq : pySplit rest with
        | nil => exact absurd hq (pySplit_ne_nil rest)
        | cons a b => exact ⟨a, b, rfl⟩
      rw [hs] at ih
      simp only [List.headD] at ih
      have hb : (c != '\n') = true := by simp [h]
      simp [pySplit, if_neg h, hs, List.takeWhile_cons, hb, ih]

/-- C6 counterexample: the claimed order (split on newlines, take the first
segment, then trim) disagrees with the code's `n.strip().split("\n")[0]`
(trim first, then split) on the raw text `" Acme \nFollowing"`: the code
yields `"Acme "`, the claimed order yields `"Acme"`. -/
theorem normalize_order_counterexample :
    cleanName (" Acme \nFollowing".data) = "Acme ".data ∧
      specSplitThenTrim (" Acme \nFollowing".data) = "Acme".data ∧
      cleanName (" Acme \nFollowing".data) ≠ specSplitThenTrim (" Acme \nFollowing".data) := by
  refine ⟨by decide, by decide, by decide⟩

/-- C6 as amended: the name-normalization first trims surrounding whitespace
(Python `strip`), then takes the segment before the first internal newline;
in particular it still maps `"Acme Corp\nFollowing"` to `"Acme Corp"`. -/
theorem normalize_trim_then_first_amended :
    (∀ l : List Char, cleanName l = (pyStrip l).takeWhile (fun c => c != '\n')) ∧
      cleanName ("Acme Corp\nFollowing".data) = "Acme Corp".data := by
  refine ⟨fun l => ?_, by decide⟩
  unfold cleanName
  exact headD_pySplit (pyStrip l)

/-- C5 counterexample: a row is built from the raw extracted text, not from
the normalized name: with the single extracted text `"Acme Corp\nFollowing"`
the emitted row carries the raw text, which still contains the newline and
differs from its normalization `"Acme Corp"`. -/
theorem raw_name_in_row_counterexample :
    processTarget "2026-10-12" ⟨"u", 1, constEnv 1, ["Acme Corp\nFollowing"]⟩ =
        .ok [["u", "Acme Corp\nFollowing", "2026-10-12"]] ∧
      cleanNameStr "Acme Corp\nFollowing" = "Acme Corp" ∧
      "Acme Corp\nFollowing" ≠ cleanNameStr "Acme Corp\nFollowing" := by
  refine ⟨rfl, by decide, by decide⟩

/-- C5 as amended: each emitted row pairs the target's source address and
the run's single timestamp with the raw extracted name (the normalized names
are computed but used only for the console count): every row has exactly the
shape `[url, rawName, today]`. -/
theorem rows_pair_raw_name_amended (today : String) (t : Target)
    (h : t.firstBatch ≠ 0) :
    processTarget today t = .ok (t.names.map fun n => [t.url, n, today]) ∧
      ∀ r ∈ rowsFor today t, r.length = 3 ∧ r.head? = some t.url ∧ r.getLast? = some today := by
  constructor
  · simp [processTarget, h, rowsFor]
  · intro r hr
    simp only [rowsFor, List.mem_map] at hr
    obtain ⟨n, _, rfl⟩ := hr
    refine ⟨rfl, rfl, rfl⟩

/-- Witness for the amended C5 at a concrete target. -/
theorem rows_pair_raw_name_amended_witness :
    processTarget "2026-10-12" ⟨"u", 1, constEnv 1, ["Acme Corp\nFollowing"]⟩ =
        .ok [["u", "Acme Corp\nFollowing", "2026-10-12"]] ∧
      ∀ r ∈ rowsFor "2026-10-12" ⟨"u", 1, constEnv 1, ["Acme Corp\nFollowing"]⟩,
        r.length = 3 ∧ r.head? = some "u" ∧ r.getLast? = some "2026-10-12" :=
  rows_pair_raw_name_amended "2026-10-12" ⟨"u", 1, constEnv 1, ["Acme Corp\nFollowing"]⟩ (by decide)

/-- C7: a timeout of either bounded spinner wait is never propagated to the
convergence loop — the settle waiter completes with the fixed 500 ms
debounce delay for every combination of wait outcomes, and the loop's whole
behavior depends only on the measured counts, never on the wait outcomes:
the loop always advances to the progress check and the next iteration. -/
theorem settle_timeouts_nonfatal :
    (∀ a d : WaitResult, settleStep a d = DEBOUNCE_MS) ∧
      (∀ env env' : Env, env.counts = env'.counts →
        load_everything env = load_everything env') := by
  constructor
  · intro a d
    cases a <;> cases d <;> rfl
  · intro env env' h
    have haux : ∀ fuel i s, loadAux env fuel i s = loadAux env' fuel i s := by
      intro fuel
      induction fuel with
      | zero => intro i s; rfl
      | succ n ih =>
        intro i s
        simp only [loadAux, h]
        by_cases hc : (env'.counts i : Int) = s.seen
        · by_cases h2 : STALL_LIMIT ≤ s.stalled + 1
          · simp [hc, h2]
          · simp [hc, h2, ih]
        · simp [hc, ih]
    exact haux MAX_SCROLLS 0 ⟨-1, 0⟩

/-- Witness for C7: two environments with the same counts, one with both
waits always succeeding and one with both always timing out, give the very
same loop result, and a timed-out attach wait still yields the 500 ms
debounce. -/
theorem settle_timeouts_nonfatal_witness :
    settleStep .timeout .ok = DEBOUNCE_MS ∧
      load_everything ⟨fun _ => 2, fun _ => .ok, fun _ => .ok⟩ =
        load_everything ⟨fun _ => 2, fun _ => .timeout, fun _ => .timeout⟩ :=
  ⟨settle_timeouts_nonfatal.1 .timeout .ok,
    settle_timeouts_nonfatal.2 ⟨fun _ => 2, fun _ => .ok, fun _ => .ok⟩
      ⟨fun _ => 2, fun _ => .timeout, fun _ => .timeout⟩ rfl⟩

/-- With a zero-count target `t` anywhere in the worklist, the run aborts
(whether at `t` or at an earlier zero-count target), carries the selector
diagnostic, never reaches `t`'s convergence loop, and emits no rows for
`t`'s position or any later one. -/
lemma runTargets_abort_aux (today : String) (t : Target) (ht : t.firstBatch = 0) :
    ∀ (pre post : List Target) (i : Nat),
      (runTargets today (pre ++ t :: post) i).aborted = true ∧
        (runTargets today (pre ++ t :: post) i).diag = some zeroItemsMsg ∧
        Ev.loopRun (i + pre.length) ∉ (runTargets today (pre ++ t :: post) i).trace ∧
        (∀ j, i + pre.length ≤ j → ∀ r, Ev.emit j r ∉ (runTargets today (pre ++ t :: post) i).trace) := by
  intro pre
  induction pre with
  | nil =>
    intro post i
    have hp : processTarget today t = .error zeroItemsMsg := by simp [processTarget, ht]
    simp only [List.nil_append, runTargets, hp]
    refine ⟨by simp, by simp, by simp, ?_⟩
    intro j _ r
    simp
  | cons u us ih =>
    intro post i
    by_cases hu : u.firstBatch = 0
    · have hp : processTarget today u = .error zeroItemsMsg := by simp [processTarget, hu]
      simp only [List.cons_append, runTargets, hp]
      refine ⟨by simp, by simp, by simp, ?_⟩
      intro j _ r
      simp
    · have hp : processTarget today u = .ok (rowsFor today u) := by simp [processTarget, hu]
      obtain ⟨ha, hd, hl, he⟩ := ih post (i + 1)
      simp only [List.cons_append, runTargets, hp]
      refine ⟨ha, hd, ?_, ?_⟩
      · simp only [List.length_cons, List.mem_cons, not_or]
        refine ⟨by simp, ?_, by simp, by simp, ?_⟩
        · simp only [ne_eq, Ev.loopRun.injEq]
          omega
        · have heq : i + (us.length + 1) = (i + 1) + us.length := by omega
          rw [heq]
          exact hl
      · intro j hj r
        simp only [List.length_cons] at hj
        simp only [List.mem_cons, not_or]
        refine ⟨by simp, by simp, ?_, by simp, ?_⟩
        · simp only [ne_eq, Ev.emit.injEq, not_and]
          intro hji
          omega
        · exact he j (by omega) r

/-- C4: a target whose item selector matches 0 elements on the pre-loop
measurement makes the whole run abort with the selector diagnostic before
that target's convergence loop is invoked: the run is marked aborted, no CSV
file is written, the loop-invocation event for that target never appears in
the trace, and no row emission happens at that target's position or any
later one. -/
theorem zero_initial_items_aborts (today : String) (pre post : List Target) (t : Target)
    (ht : t.firstBatch = 0) :
    (scrape today (pre ++ t :: post)).aborted = true ∧
      (scrape today (pre ++ t :: post)).diag = some zeroItemsMsg ∧
      csvFile (scrape today (pre ++ t :: post)) = none ∧
      Ev.loopRun pre.length ∉ (scrape today (pre ++ t :: post)).trace ∧
      (∀ j, pre.length ≤ j → ∀ r, Ev.emit j r ∉ (scrape today (pre ++ t :: post)).trace) := by
  obtain ⟨ha, hd, hl, he⟩ := runTargets_abort_aux today t ht pre post 0
  refine ⟨ha, hd, by simp [csvFile, scrape, ha], ?_, ?_⟩
  · have h0 : (0 : Nat) + pre.length = pre.length := Nat.zero_add _
    rw [h0] at hl
    exact hl
  · intro j hj r
    exact he j (by omega) r

/-- Witness for C4: with the zero-count target in the middle of a three
target worklist the run aborts, target 1's loop never runs, and nothing is
emitted at positions 1 or 2. -/
theorem zero_initial_items_aborts_witness :
    (scrape "d" [targetA, badT, targetB]).aborted = true ∧
      Ev.loopRun 1 ∉ (scrape "d" [targetA, badT, targetB]).trace ∧
      Ev.emit 2 [] ∉ (scrape "d" [targetA, badT, targetB]).trace := by
  have h := zero_initial_items_aborts "d" [targetA] [targetB] badT rfl
  exact ⟨h.1, h.2.2.2.1, h.2.2.2.2 2 (by decide) []⟩

/-- The accumulated rows of an abort-free worklist are exactly the spec's
order: targets in worklist order, names in DOM order within each target. -/
lemma runTargets_rows_aux (today : String) :
    ∀ (ts : List Target) (i : Nat), (∀ t ∈ ts, t.firstBatch ≠ 0) →
      (runTargets today ts i).rows = orderedRows today ts ∧
        (runTargets today ts i).aborted = false := by
  intro ts
  induction ts with
  | nil => intro i _; exact ⟨rfl, rfl⟩
  | cons t ts ih =>
    intro i h
    have ht : t.firstBatch ≠ 0 := h t (List.mem_cons_self t ts)
    have hp : processTarget today t = .ok (rowsFor today t) := by simp [processTarget, ht]
    obtain ⟨hr, ha⟩ := ih (i + 1) (fun u hu => h u (List.mem_cons_of_mem t hu))
    simp only [runTargets, hp, orderedRows]
    exact ⟨by rw [hr], ha⟩

/-- C8: for a run whose targets all pass the pre-loop check, the collected
rows are exactly the targets' rows in worklist order with, inside one
target, the names in rendered DOM order, and the CSV file written after all
targets mirrors that row list exactly. -/
theorem row_ordering_exact (today : String) (targets : List Target)
    (h : ∀ t ∈ targets, t.firstBatch ≠ 0) :
    (scrape today targets).rows = orderedRows today targets ∧
      (scrape today targets).aborted = false ∧
      csvFile (scrape today targets) = some (orderedRows today targets) := by
  obtain ⟨hr, ha⟩ := runTargets_rows_aux today targets 0 h
  exact ⟨hr, ha, by simp [csvFile, scrape, ha, hr]⟩

/-- Witness for C8, the spec's example: targets A (3 items) then B (2 items)
produce exactly the five rows `A-item1 .. B-item2` in that order, and the
CSV mirrors them. -/
theorem row_ordering_exact_witness :
    (scrape "d" [targetA, targetB]).rows =
        [["uA", "A-item1", "d"], ["uA", "A-item2", "d"], ["uA", "A-item3", "d"],
          ["uB", "B-item1", "d"], ["uB", "B-item2", "d"]] ∧
      csvFile (scrape "d" [targetA, targetB]) = some (scrape "d" [targetA, targetB]).rows := by
  have h := row_ordering_exact "d" [targetA, targetB]
    (by
      intro t htm
      simp only [List.mem_cons, List.mem_singleton, List.not_mem_nil, or_false] at htm
      rcases htm with rfl | rfl
      · decide
      · decide)
  refine ⟨h.1.trans (by decide), ?_⟩
  rw [h.2.2, h.1]

/-- Along every trace the number of simultaneously open page handles stays
between 0 and 1. -/
lemma runTargets_depth_aux (today : String) :
    ∀ (ts : List Target) (i : Nat), depthOk 0 (runTargets today ts i).trace = true := by
  intro ts
  induction ts with
  | nil => intro i; rfl
  | cons t ts ih =>
    intro i
    by_cases ht : t.firstBatch = 0
    · have hp : processTarget today t = .error zeroItemsMsg := by simp [processTarget, ht]
      simp only [runTargets, hp]
      norm_num [depthOk, openDelta]
    · have hp : processTarget today t = .ok (rowsFor today t) := by simp [processTarget, ht]
      simp only [runTargets, hp]
      norm_num [depthOk, openDelta]
      exact ih (i + 1)

/-- An abort-free run closes exactly as many page handles as it opens. -/
lemma runTargets_balance_aux (today : String) :
    ∀ (ts : List Target) (i : Nat), (runTargets today ts i).aborted = false →
      (runTargets today ts i).trace.countP isCloseEv =
        (runTargets today ts i).trace.countP isOpenEv := by
  intro ts
  induction ts with
  | nil => intro i _; rfl
  | cons t ts ih =>
    intro i hab
    by_cases ht : t.firstBatch = 0
    · have hp : processTarget today t = .error zeroItemsMsg := by simp [processTarget, ht]
      simp only [runTargets, hp] at hab
      cases hab
    · have hp : processTarget today t = .ok (rowsFor today t) := by simp [processTarget, ht]
      simp only [runTargets, hp] at hab ⊢
      have := ih (i + 1) hab
      simp only [List.countP_cons, isOpenEv, isCloseEv]
      omega

/-- C9 as amended: at most one target's page handle is ever open at a time
(every prefix of the trace keeps the open-handle depth between 0 and 1, so
on each non-abort exit path — normal completion, stall exit or cap exit —
the page is closed before the next target's page is opened), and an
abort-free run closes every handle it opens; the zero-count abort path,
however, terminates the run without the per-target close. -/
theorem handle_discipline_amended (today : String) (targets : List Target) :
    depthOk 0 (scrape today targets).trace = true ∧
      ((scrape today targets).aborted = false →
        (scrape today targets).trace.countP isCloseEv =
          (scrape today targets).trace.countP isOpenEv) :=
  ⟨runTargets_depth_aux today targets 0, runTargets_balance_aux today targets 0⟩

/-- Witness for the amended C9 at a concrete abort-free run. -/
theorem handle_discipline_amended_witness :
    depthOk 0 (scrape "d" [targetA]).trace = true ∧
      (scrape "d" [targetA]).trace.countP isCloseEv =
        (scrape "d" [targetA]).trace.countP isOpenEv := by
  have h := handle_discipline_amended "d" [targetA]
  exact ⟨h.1, h.2 rfl⟩

/-- C9 counterexample: on the fatal zero-initial-items path the page handle
is not released by the per-target processing — the trace of a run that
aborts on its only target is open-then-abort, with no close event at all. -/
theorem abort_leaves_handle_open_counterexample :
    (scrape "d" [badT]).trace = [Ev.pageOpen 0, Ev.abort 0] ∧
      Ev.pageClose 0 ∉ (scrape "d" [badT]).trace := by
  refine ⟨rfl, by decide⟩

end InfiniteScroll
